import Mathlib

/-!
Verification of the `jax_intro.ipynb` tutorial notebook.

Arrays are modelled over `ℚ` (the notebook's float32 arrays, read with
real-number semantics): 1-D arrays as `Fin n → ℚ` or `List ℚ`, 2-D arrays
as `Fin b → Fin a → ℚ` or `List (List ℚ)` depending on the property.
`jax.grad` is interpreted as the mathematical derivative (`HasDerivAt`),
which is the library's documented contract for automatic differentiation.
-/

namespace JaxIntro

/-! ### Linear-regression cell: `linear_model`, `mse_loss`, `jax.grad` -/

/-- `np.mean` of a vector: sum of the entries divided by the length. -/
def mean {n : ℕ} (v : Fin n → ℚ) : ℚ := (∑ i, v i) / n

/-- `def linear_model(x, m, b): return m * x + b` (scalar view, mapped
elementwise over the data vector). -/
def linear_model (x m b : ℚ) : ℚ := m * x + b

/-- `def mse_loss(params, x, y)`: unpack `m, b = params`, predict with
`linear_model`, return `np.mean((y_pred - y)**2)`. -/
def mse_loss {n : ℕ} (params : ℚ × ℚ) (x y : Fin n → ℚ) : ℚ :=
  mean (fun i => (linear_model (x i) params.1 params.2 - y i) ^ 2)

/-- The first component of the analytic gradient of `mse_loss` with
respect to `params`: `mean(2*x*(m*x + b - y))`. -/
def grad_m {n : ℕ} (m b : ℚ) (x y : Fin n → ℚ) : ℚ :=
  mean (fun i => 2 * x i * (m * x i + b - y i))

/-- The second component of the analytic gradient of `mse_loss` with
respect to `params`: `mean(2*(m*x + b - y))`. -/
def grad_b {n : ℕ} (m b : ℚ) (x y : Fin n → ℚ) : ℚ :=
  mean (fun i => 2 * (m * x i + b - y i))

lemma hasDerivAt_residual_sq_m {n : ℕ} (m b : ℚ) (x y : Fin n → ℚ) (i : Fin n) :
    HasDerivAt (fun m' : ℚ => (linear_model (x i) m' b - y i) ^ 2)
      (2 * x i * (m * x i + b - y i)) m := by
  have h1 : HasDerivAt (fun m' : ℚ => linear_model (x i) m' b - y i) (x i) m := by
    simpa [linear_model] using
      (((hasDerivAt_id m).mul_const (x i)).add_const b).sub_const (y i)
  have h2 := h1.pow 2
  simpa [linear_model, mul_comm, mul_assoc, mul_left_comm] using h2

lemma hasDerivAt_residual_sq_b {n : ℕ} (m b : ℚ) (x y : Fin n → ℚ) (i : Fin n) :
    HasDerivAt (fun b' : ℚ => (linear_model (x i) m b' - y i) ^ 2)
      (2 * (m * x i + b - y i)) b := by
  have h1 : HasDerivAt (fun b' : ℚ => linear_model (x i) m b' - y i) 1 b := by
    simpa [linear_model] using
      ((hasDerivAt_const b (m * x i)).add (hasDerivAt_id b)).sub_const (y i)
  have h2 := h1.pow 2
  simpa [linear_model, mul_comm, mul_assoc, mul_left_comm] using h2

/-- C1: `gradient = jax.grad(mse_loss, argnums=0)` returns the exact
analytic gradient of the mean-squared-error loss of the linear model:
for every parameter pair `(m, b)` and every pair of equal-length data
vectors `x` and `y`, the partial derivative in `m` is
`mean(2*x*(m*x + b - y))` and the partial derivative in `b` is
`mean(2*(m*x + b - y))`. -/
theorem gradient_mse_loss_exact {n : ℕ} (m b : ℚ) (x y : Fin n → ℚ) :
    HasDerivAt (fun m' : ℚ => mse_loss (m', b) x y) (grad_m m b x y) m ∧
    HasDerivAt (fun b' : ℚ => mse_loss (m, b') x y) (grad_b m b x y) b := by
  constructor
  · have h := HasDerivAt.sum (u := Finset.univ)
      (fun i _ => hasDerivAt_residual_sq_m m b x y i)
    simpa [mse_loss, mean, grad_m, Finset.sum_div] using h.div_const (n : ℚ)
  · have h := HasDerivAt.sum (u := Finset.univ)
      (fun i _ => hasDerivAt_residual_sq_b m b x y i)
    simpa [mse_loss, mean, grad_b, Finset.sum_div] using h.div_const (n : ℚ)

/-! ### `vmap` cells: `square`, `batched_square`, `vector_vector`,
`matrix_vector`, `matrix_matrix`, `matrix_matrix_transpose`

`jax.vmap` over a 1-D array is `List.map`; for matrices
(`Fin b → Fin a → ℚ`) the mapped input/output axes are made explicit in
one combinator per axis configuration appearing in the notebook. -/

/-- `def square(x): return x * x`. -/
def square (x : ℚ) : ℚ := x * x

/-- `jnp.vdot` of two equal-length vectors. -/
def vdot {a : ℕ} (x y : Fin a → ℚ) : ℚ := ∑ i, x i * y i

/-- `vector_vector = lambda x, y: jnp.vdot(x, y)`. -/
def vector_vector {a : ℕ} (x y : Fin a → ℚ) : ℚ := vdot x y

/-- `jax.vmap(f, in_axes=(0, None), out_axes=0)`: map `f` over axis 0 of
the first argument, broadcasting the second; the mapped axis is axis 0 of
the output. -/
def vmap_in0none_out0 {a b : ℕ} {α β : Type}
    (f : (Fin a → ℚ) → α → β) (A : Fin b → Fin a → ℚ) (v : α) : Fin b → β :=
  fun i => f (A i) v

/-- `jax.vmap(f, in_axes=(None, 1), out_axes=1)` for `f` returning a
vector: map `f` over axis 1 (the columns) of the second argument and
store the mapped axis as axis 1 of the output. -/
def vmap_none1_out1 {a c r : ℕ} {α : Type}
    (f : α → (Fin a → ℚ) → (Fin r → ℚ)) (x : α) (B : Fin a → Fin c → ℚ) :
    Fin r → Fin c → ℚ :=
  fun i j => f x (fun k => B k j) i

/-- `jax.vmap(f, in_axes=(None, 1), out_axes=0)` for `f` returning a
vector: map `f` over axis 1 of the second argument and store the mapped
axis as axis 0 of the output. -/
def vmap_none1_out0 {a c r : ℕ} {α : Type}
    (f : α → (Fin a → ℚ) → (Fin r → ℚ)) (x : α) (B : Fin a → Fin c → ℚ) :
    Fin c → Fin r → ℚ :=
  fun j i => f x (fun k => B k j) i

/-- `matrix_vector = jax.vmap(vector_vector, in_axes=(0, None), out_axes=0)`. -/
def matrix_vector {a b : ℕ} (A : Fin b → Fin a → ℚ) (v : Fin a → ℚ) :
    Fin b → ℚ :=
  vmap_in0none_out0 vector_vector A v

/-- `matrix_matrix = jax.vmap(matrix_vector, in_axes=(None, 1), out_axes=1)`. -/
def matrix_matrix {a b c : ℕ} (A : Fin b → Fin a → ℚ) (B : Fin a → Fin c → ℚ) :
    Fin b → Fin c → ℚ :=
  vmap_none1_out1 matrix_vector A B

/-- `matrix_matrix_transpose = jax.vmap(matrix_vector, in_axes=(None, 1), out_axes=0)`. -/
def matrix_matrix_transpose {a b c : ℕ}
    (A : Fin b → Fin a → ℚ) (B : Fin a → Fin c → ℚ) : Fin c → Fin b → ℚ :=
  vmap_none1_out0 matrix_vector A B

/-- `jnp.dot` of two matrices: the standard matrix product. -/
def dot {a b c : ℕ} (A : Fin b → Fin a → ℚ) (B : Fin a → Fin c → ℚ) :
    Fin b → Fin c → ℚ :=
  fun i j => ∑ k, A i k * B k j

/-- `jnp.transpose` of a matrix. -/
def transpose {b c : ℕ} (M : Fin b → Fin c → ℚ) : Fin c → Fin b → ℚ :=
  fun j i => M i j

/-- `batched_square = jax.vmap(square)` applied to a 1-D array. -/
def batched_square (xs : List ℚ) : List ℚ := xs.map square

/-- `jnp.array([square(x) for x in xs])`: the element-by-element loop,
written as explicit recursion over the list of entries. -/
def squared_loop : List ℚ → List ℚ
  | [] => []
  | x :: t => square x :: squared_loop t

/-- C2: `matrix_matrix`, built by applying `vmap` twice to the scalar dot
product `vector_vector`, agrees with `jnp.dot` on all compatible matrices,
and `batched_square = jax.vmap(square)` agrees with the element-by-element
loop `jnp.array([square(x) for x in xs])` on every vector. -/
theorem vmap_equals_loop {a b c : ℕ}
    (A : Fin b → Fin a → ℚ) (B : Fin a → Fin c → ℚ) (xs : List ℚ) :
    matrix_matrix A B = dot A B ∧ batched_square xs = squared_loop xs := by
  constructor
  · funext i j
    rfl
  · induction xs with
    | nil => rfl
    | cons x t ih => simp [batched_square, squared_loop] at ih ⊢; exact ih

/-- C8: `matrix_matrix_transpose`, which differs from `matrix_matrix`
only in `out_axes=0` instead of `out_axes=1`, computes the transpose of
`matrix_matrix` on all compatible matrices. -/
theorem matrix_matrix_transpose_eq {a b c : ℕ}
    (A : Fin b → Fin a → ℚ) (B : Fin a → Fin c → ℚ) :
    matrix_matrix_transpose A B = transpose (matrix_matrix A B) := by
  funext j i
  rfl

/-! ### Shape calculus

A symbolic shape checker for the array operations the notebook performs:
shapes are `List ℕ`, an operation on incompatible shapes returns `none`
(the library's shape-mismatch error branch). Elementwise arithmetic uses
numpy broadcasting; `dotShape` implements the `jnp.dot` cases the
notebook reaches (2-D @ 2-D, 2-D @ 1-D, 1-D @ 1-D). -/

/-- Broadcasting of a single dimension pair: equal sizes, or one of them 1. -/
def broadcastDim (a b : ℕ) : Option ℕ :=
  if a = b then some a else if a = 1 then some b else if b = 1 then some a else none

/-- Broadcasting of two reversed shapes (aligned at the leading entry). -/
def broadcastRev : List ℕ → List ℕ → Option (List ℕ)
  | [], t => some t
  | s, [] => some s
  | a :: s, b :: t => do
    let d ← broadcastDim a b
    let r ← broadcastRev s t
    pure (d :: r)

/-- Numpy broadcasting of two shapes, aligned at the trailing dimension. -/
def broadcastShape (s t : List ℕ) : Option (List ℕ) :=
  (broadcastRev s.reverse t.reverse).map List.reverse

/-- Shape of `jnp.dot` in the cases the notebook uses. -/
def dotShape : List ℕ → List ℕ → Option (List ℕ)
  | [m, k], [k2, n] => if k = k2 then some [m, n] else none
  | [m, k], [k2] => if k = k2 then some [m] else none
  | [k], [k2] => if k = k2 then some [] else none
  | _, _ => none

/-- Shape of a mean reduction (`np.mean` / `jnp.mean`): a scalar. -/
def meanShape (_ : List ℕ) : Option (List ℕ) := some []

/-- Shape-level `linear_model(x, m, b) = m * x + b`. -/
def linear_model_shape (xs ms bs : List ℕ) : Option (List ℕ) := do
  let p ← broadcastShape ms xs
  broadcastShape p bs

/-- Shape-level `mse_loss(params, x, y)`: the unpacked `m` and `b` are
scalars, `y_pred = linear_model(x, m, b)`, result `np.mean((y_pred - y)**2)`. -/
def mse_loss_shape (xs ys : List ℕ) : Option (List ℕ) := do
  let yp ← linear_model_shape xs [] []
  let d ← broadcastShape yp ys
  let sq ← broadcastShape d d
  meanShape sq

/-- Shape-level `two_layer_nn_model(x, w1, b1, w2, b2, w_out, b_out)`:
`relu(dot(x, w1) + b1)`, `relu(dot(h1, w2) + b2)`, `dot(h2, w_out) + b_out`
(`jax.nn.relu` preserves the shape). -/
def two_layer_nn_model_shape (xs w1s b1s w2s b2s wouts bouts : List ℕ) :
    Option (List ℕ) := do
  let h1 ← dotShape xs w1s
  let h1b ← broadcastShape h1 b1s
  let h2 ← dotShape h1b w2s
  let h2b ← broadcastShape h2 b2s
  let o ← dotShape h2b wouts
  broadcastShape o bouts

/-- Shape-level `two_layer_nn_mse_loss(params, x, y)`. -/
def two_layer_nn_mse_loss_shape (xs w1s b1s w2s b2s wouts bouts ys : List ℕ) :
    Option (List ℕ) := do
  let yp ← two_layer_nn_model_shape xs w1s b1s w2s b2s wouts bouts
  let d ← broadcastShape yp ys
  let sq ← broadcastShape d d
  meanShape sq

/-- Shape-level `forward(params, x)` for the pytree network with leaf
shapes `w1s, b1s, w2s, b2s`. -/
def forward_shape (w1s b1s w2s b2s xs : List ℕ) : Option (List ℕ) := do
  let z1 ← dotShape xs w1s
  let a1 ← broadcastShape z1 b1s
  let z2 ← dotShape a1 w2s
  broadcastShape z2 b2s

/-- Shape-level `loss(params, x, y_true)` for the pytree network. -/
def loss_shape (w1s b1s w2s b2s xs ys : List ℕ) : Option (List ℕ) := do
  let yp ← forward_shape w1s b1s w2s b2s xs
  let d ← broadcastShape yp ys
  let sq ← broadcastShape d d
  meanShape sq

/-- Shape-level gradient-descent parameter update `params - lr * grad`
(the gradient has the shape of the parameters, per the library contract). -/
def update_shape (ps : List ℕ) : Option (List ℕ) := do
  let g ← broadcastShape [] ps
  broadcastShape ps g

/-- C5: every array operation the notebook's computational cells execute
is applied to operands of compatible shapes, so the shape checker never
reaches the `none` (shape-mismatch) branch: the `jnp.dot` benchmarks, the
`sin*cos` jit cells, the linear-regression loss, gradient and update at
`x_data`/`y_data` of shape `[1000]`, the two-layer-network loss at the
zero-initialized parameter tuple with input `x_data[:, None]` of shape
`[1000, 1]`, the `vmap` and `pmap` matrix products, and `forward`/`loss`
with `init_network(1, 10, 1)` applied to `x_data[:, None]` against
`y_data[:, None]` all type-check with the expected result shapes. -/
theorem notebook_shapes_compatible :
    dotShape [5000, 5000] [5000, 5000] = some [5000, 5000] ∧
    broadcastShape [3] [3] = some [3] ∧
    mse_loss_shape [1000] [1000] = some [] ∧
    update_shape [2] = some [2] ∧
    two_layer_nn_mse_loss_shape [1000, 1] [1, 10] [10] [10, 10] [10] [10] []
      [1000] = some [] ∧
    dotShape [2, 2] [2, 2] = some [2, 2] ∧
    dotShape [10, 10] [10, 10] = some [10, 10] ∧
    forward_shape [1, 10] [10] [10, 1] [1] [1000, 1] = some [1000, 1] ∧
    loss_shape [1, 10] [10] [10, 1] [1] [1000, 1] [1000, 1] = some [] ∧
    update_shape [1, 10] = some [1, 10] ∧ update_shape [10] = some [10] ∧
    update_shape [10, 1] = some [10, 1] ∧ update_shape [1] = some [1] := by
  decide

/-! ### Pytree network: `init_network`, `forward`, `loss`, `grad_fn`,
`gradient_descent_step`

2-D arrays are lists of rows (`List (List ℚ)`), 1-D arrays are `List ℚ`.
A pytree is a tensor leaf or a string-keyed dictionary, encoded as a
cons spine. `jax.random.normal` is an external source of values; it is
passed in as a function `normal` from the PRNG seed and the shape to a
tensor, and the theorems assume only that it returns tensors of the
requested shape. -/

/-- A JAX array of rank 1 or 2. -/
inductive Tensor where
  | vec (v : List ℚ)
  | mat (m : List (List ℚ))
deriving DecidableEq

/-- A pytree: a tensor leaf or a string-keyed dict (cons-spine encoding). -/
inductive PTree where
  | leaf (t : Tensor)
  | dnil
  | dcons (k : String) (v : PTree) (rest : PTree)
deriving DecidableEq

/-- Length of the first row of a matrix (its column count when rectangular). -/
def headLen (M : List (List ℚ)) : ℕ := (M.headD []).length

/-- Column `j` of a matrix. -/
def colGet (M : List (List ℚ)) (j : ℕ) : List ℚ := M.map (fun r => r.getD j 0)

/-- Dot product of two rows. -/
def dotList (u v : List ℚ) : ℚ := (List.zipWith (· * ·) u v).sum

/-- `jnp.dot` on 2-D arrays in the list-of-rows representation. -/
def matmul (A B : List (List ℚ)) : List (List ℚ) :=
  A.map (fun row => (List.range (headLen B)).map (fun j => dotList row (colGet B j)))

/-- Broadcast addition of a 1-D array to every row of a 2-D array
(`jnp.dot(x, w) + b`). -/
def addRow (M : List (List ℚ)) (v : List ℚ) : List (List ℚ) :=
  M.map (fun r => List.zipWith (· + ·) r v)

/-- `jax.nn.relu` on a scalar: `max(x, 0)`. -/
def relu (x : ℚ) : ℚ := max x 0

/-- `jax.nn.relu` applied elementwise to a 2-D array. -/
def reluM (M : List (List ℚ)) : List (List ℚ) := M.map (fun r => r.map relu)

/-- Derivative of `relu` as computed by the library: `1` for positive
inputs and `0` at and below zero. -/
def reluStep (x : ℚ) : ℚ := if 0 < x then 1 else 0

/-- `reluStep` applied elementwise to a 2-D array. -/
def reluStepM (M : List (List ℚ)) : List (List ℚ) := M.map (fun r => r.map reluStep)

/-- Elementwise subtraction of 2-D arrays. -/
def matSub (A B : List (List ℚ)) : List (List ℚ) :=
  List.zipWith (List.zipWith (· - ·)) A B

/-- Elementwise (Hadamard) product of 2-D arrays. -/
def matHadamard (A B : List (List ℚ)) : List (List ℚ) :=
  List.zipWith (List.zipWith (· * ·)) A B

/-- Scalar multiple of a 2-D array. -/
def matScale (c : ℚ) (M : List (List ℚ)) : List (List ℚ) :=
  M.map (fun r => r.map (fun x => c * x))

/-- `jnp.transpose` in the list-of-rows representation. -/
def transposeM (M : List (List ℚ)) : List (List ℚ) :=
  (List.range (headLen M)).map (colGet M)

/-- Column sums of a 2-D array (the bias gradient). -/
def colSum (M : List (List ℚ)) : List ℚ :=
  (List.range (headLen M)).map (fun j => (colGet M j).sum)

/-- Number of entries of a rectangular 2-D array. -/
def numEntries (M : List (List ℚ)) : ℕ := M.length * headLen M

/-- `jnp.mean` of a 2-D array. -/
def meanM (M : List (List ℚ)) : ℚ := (M.map List.sum).sum / (numEntries M : ℚ)

/-- Dictionary lookup `t[k]` on a pytree. -/
def PTree.get (t : PTree) (key : String) : PTree :=
  match t with
  | .dcons k v rest => if k = key then v else rest.get key
  | _ => .leaf (.vec [])

/-- The tensor stored at a pytree leaf. -/
def PTree.leafT : PTree → Tensor
  | .leaf t => t
  | _ => .vec []

/-- View a tensor as a 2-D array. -/
def Tensor.asMat : Tensor → List (List ℚ)
  | .mat m => m
  | .vec _ => []

/-- View a tensor as a 1-D array. -/
def Tensor.asVec : Tensor → List ℚ
  | .vec v => v
  | .mat _ => []

/-- Scalar multiple of a tensor. -/
def tensorScale (c : ℚ) : Tensor → Tensor
  | .vec v => .vec (v.map (fun x => c * x))
  | .mat m => .mat (matScale c m)

/-- Elementwise difference of tensors of the same rank. -/
def tensorSub : Tensor → Tensor → Tensor
  | .vec u, .vec v => .vec (List.zipWith (· - ·) u v)
  | .mat a, .mat b => .mat (matSub a b)
  | _, _ => .vec []

/-- Shape of a tensor. -/
def tensorShape : Tensor → List ℕ
  | .vec v => [v.length]
  | .mat m => [m.length, headLen m]

/-- `jax.tree_map` over two pytrees: requires identical structure and
matching keys, combining the leaves with `f`. -/
def treeMap2 (f : Tensor → Tensor → Tensor) : PTree → PTree → Option PTree
  | .leaf t, .leaf u => some (.leaf (f t u))
  | .dnil, .dnil => some .dnil
  | .dcons k v rest, .dcons k2 v2 rest2 =>
    if k = k2 then do
      let w ← treeMap2 f v v2
      let s ← treeMap2 f rest rest2
      pure (.dcons k w s)
    else none
  | _, _ => none

/-- The structure-and-leaf-shapes skeleton of a pytree. -/
inductive Skel where
  | leaf (s : List ℕ)
  | dnil
  | dcons (k : String) (v : Skel) (rest : Skel)
deriving DecidableEq

/-- Skeleton of a pytree: the tree with each leaf replaced by its shape. -/
def skel : PTree → Skel
  | .leaf t => .leaf (tensorShape t)
  | .dnil => .dnil
  | .dcons k v rest => .dcons k (skel v) (skel rest)

/-- `def init_network(input_dim, hidden_dim, output_dim)`: weights drawn
from `jax.random.normal` with seeds 123 and 246, biases `jnp.zeros`. -/
def init_network (normal : ℕ → List ℕ → Tensor)
    (input_dim hidden_dim output_dim : ℕ) : PTree :=
  .dcons "layer1"
    (.dcons "weights" (.leaf (normal 123 [input_dim, hidden_dim]))
      (.dcons "biases" (.leaf (.vec (List.replicate hidden_dim 0))) .dnil))
    (.dcons "layer2"
      (.dcons "weights" (.leaf (normal 246 [hidden_dim, output_dim]))
        (.dcons "biases" (.leaf (.vec (List.replicate output_dim 0))) .dnil))
      .dnil)

/-- `def forward(params, x)`: two dense layers, each followed by
`jax.nn.relu` (including the output layer). -/
def forward (params : PTree) (x : List (List ℚ)) : List (List ℚ) :=
  let w1 := ((params.get "layer1").get "weights").leafT.asMat
  let b1 := ((params.get "layer1").get "biases").leafT.asVec
  let w2 := ((params.get "layer2").get "weights").leafT.asMat
  let b2 := ((params.get "layer2").get "biases").leafT.asVec
  let z1 := addRow (matmul x w1) b1
  let a1 := reluM z1
  let z2 := addRow (matmul a1 w2) b2
  let a2 := reluM z2
  a2

/-- `def loss(params, x, y_true)`: `jnp.mean((forward(params, x) - y_true) ** 2)`. -/
def loss (params : PTree) (x y_true : List (List ℚ)) : ℚ :=
  let d := matSub (forward params x) y_true
  meanM (matHadamard d d)

/-- Reverse-mode differentiation of `loss` through the two dense layers
(the computation `jax.grad` performs): given the four parameter leaves
and the data, produce `(dW1, dB1, dW2, dB2)`. -/
def backprop (w1 : List (List ℚ)) (b1 : List ℚ) (w2 : List (List ℚ))
    (b2 : List ℚ) (x y : List (List ℚ)) :
    List (List ℚ) × List ℚ × List (List ℚ) × List ℚ :=
  let z1 := addRow (matmul x w1) b1
  let a1 := reluM z1
  let z2 := addRow (matmul a1 w2) b2
  let a2 := reluM z2
  let dA2 := matScale (2 / (numEntries a2 : ℚ)) (matSub a2 y)
  let dZ2 := matHadamard dA2 (reluStepM z2)
  let dW2 := matmul (transposeM a1) dZ2
  let dB2 := colSum dZ2
  let dA1 := matmul dZ2 (transposeM w2)
  let dZ1 := matHadamard dA1 (reluStepM z1)
  let dW1 := matmul (transposeM x) dZ1
  let dB1 := colSum dZ1
  (dW1, dB1, dW2, dB2)

/-- `grad_fn = jax.grad(loss)`: the reverse-mode gradient of `loss` in
`params`, computed by backpropagation through the two layers; it returns
a pytree with the same dictionary structure as `params`. -/
def grad_fn (params : PTree) (x y_true : List (List ℚ)) : PTree :=
  let w1 := ((params.get "layer1").get "weights").leafT.asMat
  let b1 := ((params.get "layer1").get "biases").leafT.asVec
  let w2 := ((params.get "layer2").get "weights").leafT.asMat
  let b2 := ((params.get "layer2").get "biases").leafT.asVec
  let g := backprop w1 b1 w2 b2 x y_true
  .dcons "layer1"
    (.dcons "weights" (.leaf (.mat g.1))
      (.dcons "biases" (.leaf (.vec g.2.1)) .dnil))
    (.dcons "layer2"
      (.dcons "weights" (.leaf (.mat g.2.2.1))
        (.dcons "biases" (.leaf (.vec g.2.2.2)) .dnil))
      .dnil)

/-- `def gradient_descent_step(params, x, y_true, learning_rate=0.01)`:
`jax.tree_map(lambda p, g: p - learning_rate * g, params, gradients)`. -/
def gradient_descent_step (params : PTree) (x y_true : List (List ℚ))
    (learning_rate : ℚ) : Option PTree :=
  treeMap2 (fun p g => tensorSub p (tensorScale learning_rate g))
    params (grad_fn params x y_true)

/-! ### Shape facts about the list-of-rows operations -/

/-- `M` is a 2-D array with `r` rows, each of length `c`. -/
def MatShape (M : List (List ℚ)) (r c : ℕ) : Prop :=
  M.length = r ∧ ∀ row ∈ M, row.length = c

lemma MatShape.headLen_eq {M : List (List ℚ)} {r c : ℕ}
    (h : MatShape M r c) (hr : r ≠ 0) : headLen M = c := by
  cases M with
  | nil => exact absurd h.1.symm hr
  | cons a t => exact h.2 a (List.mem_cons_self a t)

lemma matmul_shape (A B : List (List ℚ)) :
    MatShape (matmul A B) A.length (headLen B) := by
  constructor
  · simp [matmul]
  · intro row hrow
    simp only [matmul, List.mem_map] at hrow
    obtain ⟨r, _, rfl⟩ := hrow
    simp

lemma map_row_shape (f : ℚ → ℚ) {M : List (List ℚ)} {r c : ℕ}
    (h : MatShape M r c) : MatShape (M.map (fun row => row.map f)) r c := by
  refine ⟨by simpa using h.1, ?_⟩
  intro row hrow
  simp only [List.mem_map] at hrow
  obtain ⟨q, hq, rfl⟩ := hrow
  simpa using h.2 q hq

lemma reluM_shape {M : List (List ℚ)} {r c : ℕ} (h : MatShape M r c) :
    MatShape (reluM M) r c := map_row_shape relu h

lemma reluStepM_shape {M : List (List ℚ)} {r c : ℕ} (h : MatShape M r c) :
    MatShape (reluStepM M) r c := map_row_shape reluStep h

lemma matScale_shape (k : ℚ) {M : List (List ℚ)} {r c : ℕ} (h : MatShape M r c) :
    MatShape (matScale k M) r c := map_row_shape (fun x => k * x) h

lemma addRow_shape {M : List (List ℚ)} {v : List ℚ} {r c : ℕ}
    (h : MatShape M r c) (hv : v.length = c) : MatShape (addRow M v) r c := by
  refine ⟨by simpa [addRow] using h.1, ?_⟩
  intro row hrow
  simp only [addRow, List.mem_map] at hrow
  obtain ⟨q, hq, rfl⟩ := hrow
  simp [h.2 q hq, hv]

lemma zipWith2_shape {f : ℚ → ℚ → ℚ} :
    ∀ {A B : List (List ℚ)} {r c : ℕ}, MatShape A r c → MatShape B r c →
      MatShape (List.zipWith (List.zipWith f) A B) r c := by
  intro A
  induction A with
  | nil =>
    intro B r c hA _
    exact ⟨by simp [← hA.1], by simp⟩
  | cons a t ih =>
    intro B r c hA hB
    cases B with
    | nil =>
      rw [← hA.1] at hB
      exact absurd hB.1 (by simp)
    | cons b u =>
      have ht : MatShape t (t.length) c :=
        ⟨rfl, fun row hrow => hA.2 row (List.mem_cons_of_mem a hrow)⟩
      have hu : MatShape u (t.length) c := by
        refine ⟨?_, fun row hrow => hB.2 row (List.mem_cons_of_mem b hrow)⟩
        have := hA.1
        have := hB.1
        simp at *
        omega
      have hrec := ih ht hu
      constructor
      · simp [hrec.1, ← hA.1]
      · intro row hrow
        rcases List.mem_cons.mp hrow with hhead | htail
        · subst hhead
          simp [hA.2 a (List.mem_cons_self a t), hB.2 b (List.mem_cons_self b u)]
        · exact hrec.2 row htail

lemma matSub_shape {A B : List (List ℚ)} {r c : ℕ}
    (hA : MatShape A r c) (hB : MatShape B r c) : MatShape (matSub A B) r c :=
  zipWith2_shape hA hB

lemma matHadamard_shape {A B : List (List ℚ)} {r c : ℕ}
    (hA : MatShape A r c) (hB : MatShape B r c) :
    MatShape (matHadamard A B) r c :=
  zipWith2_shape hA hB

lemma transposeM_shape (M : List (List ℚ)) :
    MatShape (transposeM M) (headLen M) M.length := by
  constructor
  · simp [transposeM]
  · intro row hrow
    simp only [transposeM, List.mem_map] at hrow
    obtain ⟨j, _, rfl⟩ := hrow
    simp [colGet]

lemma colSum_length (M : List (List ℚ)) : (colSum M).length = headLen M := by
  simp [colSum]

lemma zipWith_sub_length {u v : List ℚ} {n : ℕ}
    (hu : u.length = n) (hv : v.length = n) :
    (List.zipWith (fun a b => a - b) u v).length = n := by
  simp [hu, hv]

lemma matmul_shape' {A B : List (List ℚ)} {r c : ℕ}
    (hA : A.length = r) (hB : headLen B = c) : MatShape (matmul A B) r c :=
  hA ▸ hB ▸ matmul_shape A B

/-- C9: `gradient_descent_step` returns a pytree with exactly the
structure and leaf shapes of its `params` argument: applied to
`init_network(1, 10, 1)` (with data of the notebook's shapes
`(1000, 1)`), the update succeeds and is a nested dict with keys
`layer1` and `layer2`, each holding `weights` and `biases` leaves of
shapes `(1, 10)`, `(10,)`, `(10, 1)` and `(1,)`, matching the input
parameter tree. -/
lemma backprop_shapes (w1 : List (List ℚ)) (b1 : List ℚ)
    (w2 : List (List ℚ)) (b2 : List ℚ) (x y : List (List ℚ)) (n : ℕ)
    (hw1 : MatShape w1 1 10) (hb1 : b1.length = 10)
    (hw2 : MatShape w2 10 1) (hb2 : b2.length = 1)
    (hx : MatShape x n 1) (hy : MatShape y n 1) (hn : n ≠ 0) :
    MatShape (backprop w1 b1 w2 b2 x y).1 1 10 ∧
    (backprop w1 b1 w2 b2 x y).2.1.length = 10 ∧
    MatShape (backprop w1 b1 w2 b2 x y).2.2.1 10 1 ∧
    (backprop w1 b1 w2 b2 x y).2.2.2.length = 1 := by
  set z1 := addRow (matmul x w1) b1 with hz1d
  set a1 := reluM z1 with ha1d
  set z2 := addRow (matmul a1 w2) b2 with hz2d
  set a2 := reluM z2 with ha2d
  set dA2 := matScale (2 / (numEntries a2 : ℚ)) (matSub a2 y) with hdA2d
  set dZ2 := matHadamard dA2 (reluStepM z2) with hdZ2d
  set dW2 := matmul (transposeM a1) dZ2 with hdW2d
  set dB2 := colSum dZ2 with hdB2d
  set dA1 := matmul dZ2 (transposeM w2) with hdA1d
  set dZ1 := matHadamard dA1 (reluStepM z1) with hdZ1d
  set dW1 := matmul (transposeM x) dZ1 with hdW1d
  set dB1 := colSum dZ1 with hdB1d
  have sZ1 : MatShape z1 n 10 :=
    addRow_shape (matmul_shape' hx.1 (hw1.headLen_eq one_ne_zero)) hb1
  have sA1 : MatShape a1 n 10 := reluM_shape sZ1
  have sZ2 : MatShape z2 n 1 :=
    addRow_shape (matmul_shape' sA1.1 (hw2.headLen_eq (by norm_num))) hb2
  have sA2 : MatShape a2 n 1 := reluM_shape sZ2
  have sDA2 : MatShape dA2 n 1 := matScale_shape _ (matSub_shape sA2 hy)
  have sDZ2 : MatShape dZ2 n 1 := matHadamard_shape sDA2 (reluStepM_shape sZ2)
  have sDW2 : MatShape dW2 10 1 := by
    refine matmul_shape' ?_ (sDZ2.headLen_eq hn)
    exact (transposeM_shape a1).1.trans (sA1.headLen_eq hn)
  have sDB2 : dB2.length = 1 := (colSum_length dZ2).trans (sDZ2.headLen_eq hn)
  have sDA1 : MatShape dA1 n 10 := by
    refine matmul_shape' sDZ2.1 ?_
    exact ((transposeM_shape w2).headLen_eq
      (by rw [hw2.headLen_eq (by norm_num)]; norm_num)).trans hw2.1
  have sDZ1 : MatShape dZ1 n 10 := matHadamard_shape sDA1 (reluStepM_shape sZ1)
  have sDW1 : MatShape dW1 1 10 := by
    refine matmul_shape' ?_ (sDZ1.headLen_eq hn)
    exact (transposeM_shape x).1.trans (hx.headLen_eq hn)
  have sDB1 : dB1.length = 10 := (colSum_length dZ1).trans (sDZ1.headLen_eq hn)
  exact ⟨sDW1, sDB1, sDW2, sDB2⟩

/-- C9: `gradient_descent_step` returns a pytree with exactly the
structure and leaf shapes of its `params` argument: applied to
`init_network(1, 10, 1)` (with data of the notebook's shapes
`(1000, 1)`), the update succeeds and is a nested dict with keys
`layer1` and `layer2`, each holding `weights` and `biases` leaves of
shapes `(1, 10)`, `(10,)`, `(10, 1)` and `(1,)`, matching the input
parameter tree. -/
theorem gradient_descent_step_preserves_structure
    (normal : ℕ → List ℕ → Tensor) (x y : List (List ℚ)) (lr : ℚ)
    (h1 : ∃ m, normal 123 [1, 10] = .mat m ∧ MatShape m 1 10)
    (h2 : ∃ m, normal 246 [10, 1] = .mat m ∧ MatShape m 10 1)
    (hx : MatShape x 1000 1) (hy : MatShape y 1000 1) :
    ∃ upd, gradient_descent_step (init_network normal 1 10 1) x y lr = some upd ∧
      skel upd = skel (init_network normal 1 10 1) ∧
      skel (init_network normal 1 10 1) =
        .dcons "layer1" (.dcons "weights" (.leaf [1, 10])
          (.dcons "biases" (.leaf [10]) .dnil))
        (.dcons "layer2" (.dcons "weights" (.leaf [10, 1])
          (.dcons "biases" (.leaf [1]) .dnil)) .dnil) := by
  obtain ⟨m1, e1, s1⟩ := h1
  obtain ⟨m2, e2, s2⟩ := h2
  have hb := backprop_shapes m1 (List.replicate 10 0) m2 (List.replicate 1 0)
    x y 1000 s1 (by simp) s2 (by simp) hx hy (by norm_num)
  simp only [init_network, e1, e2, gradient_descent_step, grad_fn, PTree.get,
    PTree.leafT, Tensor.asMat, Tensor.asVec, String.reduceEq, reduceIte,
    treeMap2, Option.bind_eq_bind, Option.some_bind, tensorScale, tensorSub]
  refine ⟨_, rfl, ?_, ?_⟩
  · have hA1 := matSub_shape s1 (matScale_shape lr hb.1)
    have hA2 := matSub_shape s2 (matScale_shape lr hb.2.2.1)
    simp only [skel, tensorShape]
    rw [hA1.1, hA1.headLen_eq one_ne_zero, hA2.1, hA2.headLen_eq (by norm_num),
      s1.1, s1.headLen_eq one_ne_zero, s2.1, s2.headLen_eq (by norm_num)]
    simp only [List.length_zipWith, List.length_map, List.length_replicate,
      hb.2.1, hb.2.2.2, min_self]
  · simp only [skel, tensorShape]
    rw [s1.1, s1.headLen_eq one_ne_zero, s2.1, s2.headLen_eq (by norm_num)]
    simp

/-- A concrete stand-in for `jax.random.normal` returning the
zero tensor of the two shapes `init_network(1, 10, 1)` requests,
used to instantiate the theorems at a closed input. -/
def zeroNormal (k : ℕ) (_ : List ℕ) : Tensor :=
  if k = 123 then .mat [List.replicate 10 0] else .mat (List.replicate 10 [0])

/-- Witness for C9: the structure-preservation theorem instantiated at a
concrete initializer and concrete data of shape `(1000, 1)`. -/
theorem gradient_descent_step_preserves_structure_witness :
    ∃ upd, gradient_descent_step (init_network zeroNormal 1 10 1)
        (List.replicate 1000 [0]) (List.replicate 1000 [1]) (1 / 100) = some upd ∧
      skel upd = skel (init_network zeroNormal 1 10 1) ∧
      skel (init_network zeroNormal 1 10 1) =
        .dcons "layer1" (.dcons "weights" (.leaf [1, 10])
          (.dcons "biases" (.leaf [10]) .dnil))
        (.dcons "layer2" (.dcons "weights" (.leaf [10, 1])
          (.dcons "biases" (.leaf [1]) .dnil)) .dnil) :=
  gradient_descent_step_preserves_structure zeroNormal
    (List.replicate 1000 [0]) (List.replicate 1000 [1]) (1 / 100)
    ⟨[List.replicate 10 0], rfl,
      ⟨rfl, fun r hr => by
        rw [List.mem_singleton] at hr
        rw [hr, List.length_replicate]⟩⟩
    ⟨List.replicate 10 [0], rfl,
      ⟨by rw [List.length_replicate], fun r hr => by
        rw [List.eq_of_mem_replicate hr]; rfl⟩⟩
    ⟨by rw [List.length_replicate], fun r hr => by
      rw [List.eq_of_mem_replicate hr]; rfl⟩
    ⟨by rw [List.length_replicate], fun r hr => by
      rw [List.eq_of_mem_replicate hr]; rfl⟩

/-! ### Data generation and nonnegativity of `forward` -/

/-- `jnp.linspace(lo, hi, n)`. -/
def linspace (lo hi : ℚ) (n : ℕ) : Fin n → ℚ :=
  fun i => lo + (hi - lo) * (i.val : ℚ) / ((n : ℚ) - 1)

/-- `true_m = 2.5`. -/
def true_m : ℚ := 5 / 2

/-- `true_b = -1.0`. -/
def true_b : ℚ := -1

/-- `x_data = jnp.linspace(-10, 10, 1000)`. -/
def x_data : Fin 1000 → ℚ := linspace (-10) 10 1000

/-- `y_data = true_m * x_data + true_b + jax.random.normal(...) * 2.0`:
the sampled noise vector is passed in as a parameter. -/
def y_data (noise : Fin 1000 → ℚ) : Fin 1000 → ℚ :=
  fun i => true_m * x_data i + true_b + noise i * 2

/-- C10: because `forward` applies a ReLU activation to its second
(output) layer, its output is elementwise nonnegative for every parameter
pytree and every input; yet the regression target `y_data` contains
negative values (its first entry is `-26 + 2 * noise_0`, negative whenever
the sampled noise at index 0 is below 13), so the pytree network can
never output a negative prediction for those targets. -/
theorem forward_nonneg_despite_negative_targets :
    (∀ (params : PTree) (x : List (List ℚ)),
      ∀ row ∈ forward params x, ∀ v ∈ row, 0 ≤ v) ∧
    (∀ noise : Fin 1000 → ℚ, noise 0 < 13 → y_data noise 0 < 0) := by
  constructor
  · intro params x row hrow v hv
    simp only [forward, reluM, List.mem_map] at hrow
    obtain ⟨r, _, rfl⟩ := hrow
    simp only [List.mem_map] at hv
    obtain ⟨a, _, rfl⟩ := hv
    exact le_max_right a 0
  · intro noise h
    have hx0 : x_data 0 = -10 := by
      simp [x_data, linspace]
    simp only [y_data, hx0, true_m, true_b]
    linarith

/-- A tiny all-zero parameter tree (one unit per layer) used to
instantiate the nonnegativity theorem at a concrete input. -/
def tinyParams : PTree :=
  .dcons "layer1" (.dcons "weights" (.leaf (.mat [[0]]))
    (.dcons "biases" (.leaf (.vec [0])) .dnil))
  (.dcons "layer2" (.dcons "weights" (.leaf (.mat [[0]]))
    (.dcons "biases" (.leaf (.vec [0])) .dnil)) .dnil)

/-- Witness for C10: the nonnegativity theorem applied to `tinyParams`
on the input `[[0]]` (whose output is `[[0]]`), and the target
negativity applied to the zero noise vector. -/
theorem forward_nonneg_despite_negative_targets_witness :
    (0 : ℚ) ≤ 0 ∧ y_data (fun _ => 0) 0 < 0 := by
  constructor
  · have hfwd : forward tinyParams [[0]] = [[0]] := by
      simp [forward, tinyParams, PTree.get, PTree.leafT, Tensor.asMat,
        Tensor.asVec, matmul, addRow, reluM, relu, headLen, colGet, dotList,
        List.range_succ]
    exact forward_nonneg_despite_negative_targets.1 tinyParams [[0]] [0]
      (by rw [hfwd]; exact List.mem_singleton.mpr rfl) 0
      (List.mem_singleton.mpr rfl)
  · exact forward_nonneg_despite_negative_targets.2 (fun _ => 0) (by norm_num)

/-! ### Store model for array immutability

JAX arrays live in a store (a list of allocated 1-D arrays, addressed by
index); every array-producing operation allocates a fresh cell at the end
of the store and never writes to an existing one, which is the library's
immutability contract. The notebook's two parameter-update sites — the
`params -= learning_rate * grad_params` loop and the `tree_map` update in
`gradient_descent_step` — are modelled as store transformers, and the
theorems state that the portion of the store that existed before running
them is untouched. -/

/-- Allocate a fresh array at the end of the store, returning the new
store and the index (name) bound to the new array. -/
def alloc (s : List (List ℚ)) (v : List ℚ) : List (List ℚ) × ℕ :=
  (s ++ [v], s.length)

/-- `np.mean` of a 1-D array in list form. -/
def meanL (l : List ℚ) : ℚ := l.sum / (l.length : ℚ)

/-- The value of `gradient(params, x, y)` for the linear model, with
`m = params[0]`, `b = params[1]` (the analytic gradient proven exact in
the C1 theorem). -/
def gradientValue (pv x y : List ℚ) : List ℚ :=
  let m := pv.getD 0 0
  let b := pv.getD 1 0
  [meanL (List.zipWith (fun xi yi => 2 * xi * (m * xi + b - yi)) x y),
    meanL (List.zipWith (fun xi yi => 2 * (m * xi + b - yi)) x y)]

/-- The value bound by `params -= learning_rate * grad_params`. -/
def paramsStep (lr : ℚ) (pv x y : List ℚ) : List ℚ :=
  List.zipWith (fun p g => p - lr * g) pv (gradientValue pv x y)

/-- The gradient-descent loop `for i in range(k): ... params -= ...`
running in the store: each iteration reads the array currently bound to
`params`, computes the update value, allocates a fresh array holding it,
and rebinds `params` to the fresh index. -/
def linRegLoopStore (lr : ℚ) (x y : List ℚ) :
    ℕ → List (List ℚ) × ℕ → List (List ℚ) × ℕ
  | 0, sp => sp
  | k + 1, (s, pid) =>
    let pv := s.getD pid []
    let a := alloc s (paramsStep lr pv x y)
    linRegLoopStore lr x y k a

/-- The store effect of the `jax.tree_map` update in
`gradient_descent_step`: one fresh array is allocated per leaf of the
parameter tree (the leaf values `vs` were computed beforehand); existing
arrays are not written. -/
def allocLeaves (s : List (List ℚ)) :
    List (List ℚ) → List (List ℚ) × List ℕ
  | [] => (s, [])
  | v :: t =>
    let a := alloc s v
    let r := allocLeaves a.1 t
    (r.1, a.2 :: r.2)

lemma linRegLoopStore_extends (lr : ℚ) (x y : List ℚ) :
    ∀ (k : ℕ) (s : List (List ℚ)) (pid : ℕ),
      ∃ t, (linRegLoopStore lr x y k (s, pid)).1 = s ++ t := by
  intro k
  induction k with
  | zero => exact fun s pid => ⟨[], by simp [linRegLoopStore]⟩
  | succ n ih =>
    intro s pid
    obtain ⟨t, ht⟩ :=
      ih (s ++ [paramsStep lr (s.getD pid []) x y]) s.length
    exact ⟨[paramsStep lr (s.getD pid []) x y] ++ t,
      by simp only [linRegLoopStore, alloc, ht, List.append_assoc]⟩

lemma allocLeaves_extends :
    ∀ (vs : List (List ℚ)) (s : List (List ℚ)),
      ∃ t, (allocLeaves s vs).1 = s ++ t := by
  intro vs
  induction vs with
  | nil => exact fun s => ⟨[], by simp [allocLeaves]⟩
  | cons v t ih =>
    intro s
    obtain ⟨u, hu⟩ := ih (s ++ [v])
    exact ⟨[v] ++ u, by simp only [allocLeaves, alloc, hu, List.append_assoc]⟩

/-- C3: arrays are immutable — the parameter-update sites only allocate:
after any number of iterations of the `params -= learning_rate * grad`
loop, and after the per-leaf `tree_map` update of
`gradient_descent_step`, the arrays that existed in the store before
(`s`) are still there with unchanged contents (the new store is `s`
followed by freshly allocated arrays, so taking the first `s.length`
cells gives back `s` exactly); the updated `params` binding refers to a
fresh array, not to a modified old one. -/
theorem jax_arrays_immutable (lr : ℚ) (x y : List ℚ) (k : ℕ)
    (s : List (List ℚ)) (pid : ℕ) (vs : List (List ℚ)) :
    (∃ t, (linRegLoopStore lr x y k (s, pid)).1 = s ++ t) ∧
    (linRegLoopStore lr x y k (s, pid)).1.take s.length = s ∧
    (∃ t, (allocLeaves s vs).1 = s ++ t) ∧
    (allocLeaves s vs).1.take s.length = s ∧
    (linRegLoopStore lr x y (k + 1) (s, pid)).2 ≥ s.length := by
  obtain ⟨t, ht⟩ := linRegLoopStore_extends lr x y k s pid
  obtain ⟨u, hu⟩ := allocLeaves_extends vs s
  have hfresh : ∀ (j : ℕ) (s2 : List (List ℚ)) (pid2 : ℕ),
      s2.length ≤ (linRegLoopStore lr x y (j + 1) (s2, pid2)).2 := by
    intro j
    induction j with
    | zero => intro s2 pid2; simp [linRegLoopStore, alloc]
    | succ n ih =>
      intro s2 pid2
      have step : linRegLoopStore lr x y (n + 2) (s2, pid2) =
          linRegLoopStore lr x y (n + 1)
            (s2 ++ [paramsStep lr (s2.getD pid2 []) x y], s2.length) := rfl
      rw [step]
      calc s2.length
          ≤ (s2 ++ [paramsStep lr (s2.getD pid2 []) x y]).length := by simp
        _ ≤ _ := ih (s2 ++ [paramsStep lr (s2.getD pid2 []) x y]) s2.length
  exact ⟨⟨t, ht⟩, by rw [ht, List.take_left], ⟨u, hu⟩,
    by rw [hu, List.take_left], hfresh k s pid⟩

/-! ### Control flow of the notebook's code cells

A per-cell transcription of the control-flow constructs appearing in the
source of each (non-empty) code cell of `jax_intro.ipynb`, in execution
order: the number of `for` loops (including comprehensions/generator
expressions), `if` statements, `try/except` blocks, recursive function
definitions, and loops without a static finite bound (`while` loops or
iteration over unbounded data — none occur; every loop ranges over
`range(...)` literals or small concrete containers). -/

/-- Control-flow constructs appearing in one code cell. -/
structure CellFlow where
  forLoops : ℕ
  conditionals : ℕ
  tryExcepts : ℕ
  recursiveDefs : ℕ
  unboundedLoops : ℕ
deriving DecidableEq

/-- The notebook's non-empty code cells, in order: imports/array creation;
the immutability `try/except` cell; device placement; `%timeit`
benchmarks; `jit` examples; `make_jaxpr`; the jit-print cell (two
`for i in range(3)` loops); data generation; `linear_model`/`mse_loss`;
`gradient`; the linear-regression loop (`for i in range(100)`, one `if`);
the two-layer cell (`for i in range(100)` plus a generator expression,
one `if`); `square`; the list-comprehension cell; `batched_square`;
the `vmap` dot-product cell; `jax.devices()`; the `pmap` cell (one `for`
over result buffers); pytree examples; `tree_map`; `init_network`;
`forward`; `loss`/`grad_fn`/`gradient_descent_step`; and
`print_leaf_shapes` (one `for`, one `if`, one recursive def). -/
def notebookControlFlow : List CellFlow :=
  [⟨0, 0, 0, 0, 0⟩,
   ⟨0, 0, 1, 0, 0⟩,
   ⟨0, 0, 0, 0, 0⟩,
   ⟨0, 0, 0, 0, 0⟩,
   ⟨0, 0, 0, 0, 0⟩,
   ⟨0, 0, 0, 0, 0⟩,
   ⟨2, 0, 0, 0, 0⟩,
   ⟨0, 0, 0, 0, 0⟩,
   ⟨0, 0, 0, 0, 0⟩,
   ⟨0, 0, 0, 0, 0⟩,
   ⟨1, 1, 0, 0, 0⟩,
   ⟨2, 1, 0, 0, 0⟩,
   ⟨0, 0, 0, 0, 0⟩,
   ⟨1, 0, 0, 0, 0⟩,
   ⟨0, 0, 0, 0, 0⟩,
   ⟨0, 0, 0, 0, 0⟩,
   ⟨0, 0, 0, 0, 0⟩,
   ⟨1, 0, 0, 0, 0⟩,
   ⟨0, 0, 0, 0, 0⟩,
   ⟨0, 0, 0, 0, 0⟩,
   ⟨0, 0, 0, 0, 0⟩,
   ⟨0, 0, 0, 0, 0⟩,
   ⟨0, 0, 0, 0, 0⟩,
   ⟨1, 1, 0, 1, 0⟩]

/-! ### The immutability `try/except` cell -/

/-- `jax_array = jnp.array([[1, 2], [3, 4]])`. -/
def jax_array : List (List ℚ) := [[1, 2], [3, 4]]

/-- The library's error message for item assignment on a JAX array
(modelled from the library contract the cell demonstrates). -/
def itemAssignmentError : String :=
  "JAX arrays are immutable and do not support in-place item assignment."

/-- Item assignment `a[i, j] = v` on a JAX array: always raises a
`TypeError`, because JAX arrays are immutable (the notebook markdown:
once an array is created, its contents cannot be changed). -/
def setItem (_ : List (List ℚ)) (_ _ : ℕ) (_ : ℚ) :
    Except String (List (List ℚ)) :=
  .error itemAssignmentError

/-- The immutability cell: run `jax_array[1, 1] = 0` inside
`try/except TypeError`, printing the caught message; the value of the
cell is the array binding after the cell plus the printed output. -/
def immutability_cell : List (List ℚ) × Option String :=
  match setItem jax_array 1 1 0 with
  | .ok a2 => (a2, none)
  | .error e => (jax_array, some ("Exeption raised: " ++ e))

/-- C4: item assignment on the JAX array raises a `TypeError`; the cell's
`try/except` catches exactly this error and prints its message; after the
caught exception the array's contents are unchanged (`[[1, 2], [3, 4]]`);
and this `try/except` is the only error-handling construct in the
notebook. -/
theorem immutability_cell_behavior :
    immutability_cell = (jax_array, some ("Exeption raised: " ++ itemAssignmentError)) ∧
    jax_array = [[1, 2], [3, 4]] ∧
    (notebookControlFlow.map CellFlow.tryExcepts).sum = 1 := by
  decide

/-! ### The two gradient-descent training loops -/

/-- The parameter tuple of the two-layer tuple network:
`(w1, b1, w2, b2, w_out, b_out)`. -/
abbrev NNParams :=
  List (List ℚ) × List ℚ × List (List ℚ) × List ℚ × List ℚ × ℚ

/-- Elementwise `v - lr * g` on 1-D arrays. -/
def vecStep (lr : ℚ) (v g : List ℚ) : List ℚ :=
  List.zipWith (fun p q => p - lr * q) v g

/-- The body of `params_two_layer_nn = tuple(param - learning_rate *
grad_param for param, grad_param in zip(params, grads))`. -/
def two_layer_update (lr : ℚ) (p g : NNParams) : NNParams :=
  (matSub p.1 (matScale lr g.1),
   vecStep lr p.2.1 g.2.1,
   matSub p.2.2.1 (matScale lr g.2.2.1),
   vecStep lr p.2.2.2.1 g.2.2.2.1,
   vecStep lr p.2.2.2.2.1 g.2.2.2.2.1,
   p.2.2.2.2.2 - lr * g.2.2.2.2.2)

/-- The linear-regression loop
`for i in range(100): ... params -= learning_rate * grad_params`. -/
def linRegLoop (lr : ℚ) (x y p0 : List ℚ) : List ℚ :=
  (List.range 100).foldl (fun p _ => paramsStep lr p x y) p0

/-- The two-layer loop `for i in range(100): ...` updating the parameter
tuple; `g` is `gradient_two_layer_nn(·, x_data[:, None], y_data)`
(the library-computed gradient function). -/
def two_layer_nn_loop (lr : ℚ) (g : NNParams → NNParams) (p0 : NNParams) :
    NNParams :=
  (List.range 100).foldl (fun p _ => two_layer_update lr p (g p)) p0

lemma foldl_range_const {α : Type} (f : α → α) :
    ∀ (n : ℕ) (a : α), (List.range n).foldl (fun x _ => f x) a = f^[n] a := by
  intro n
  induction n with
  | zero => intro a; simp
  | succ m ih =>
    intro a
    rw [List.range_succ, List.foldl_append, ih]
    simp [Function.iterate_succ_apply']

/-- C6: each of the two gradient-descent training loops performs exactly
100 iterations of its update step and then terminates (each equals the
100-fold iterate of its loop body, for every gradient function and every
starting point), and no loop in the notebook is unbounded. -/
theorem training_loops_exactly_100 (lr : ℚ) (x y p0 : List ℚ)
    (g : NNParams → NNParams) (q0 : NNParams) :
    linRegLoop lr x y p0 = (fun p => paramsStep lr p x y)^[100] p0 ∧
    two_layer_nn_loop lr g q0 = (fun p => two_layer_update lr p (g p))^[100] q0 ∧
    ∀ c ∈ notebookControlFlow, c.unboundedLoops = 0 := by
  exact ⟨foldl_range_const (fun p => paramsStep lr p x y) 100 p0,
    foldl_range_const (fun p => two_layer_update lr p (g p)) 100 q0,
    by decide⟩

/-- Counterexample for C7: it is not true that no cell uses conditionals,
recursion or exception handling — the immutability cell has a
`try/except`, the training loops and `print_leaf_shapes` have `if`
statements, and `print_leaf_shapes` is recursive. -/
theorem notebook_control_flow_cex :
    ¬ ∀ c ∈ notebookControlFlow,
      c.conditionals = 0 ∧ c.tryExcepts = 0 ∧ c.recursiveDefs = 0 := by
  decide

/-- C7 (amended): the notebook has no unbounded control flow — every
loop is a bounded `for` — but beyond straight-line code and bounded
`for` loops it does contain exactly three `if` conditionals (two
guarding progress printing in the training loops, one branching on dict
values in `print_leaf_shapes`), exactly one recursive function
(`print_leaf_shapes`), and exactly one `try/except`. -/
theorem notebook_control_flow_amended :
    (∀ c ∈ notebookControlFlow, c.unboundedLoops = 0) ∧
    (notebookControlFlow.map CellFlow.conditionals).sum = 3 ∧
    (notebookControlFlow.map CellFlow.recursiveDefs).sum = 1 ∧
    (notebookControlFlow.map CellFlow.tryExcepts).sum = 1 := by
  decide

end JaxIntro
